import Mathlib

/-!
Verification development for the circle-line-game repository.

The repository contains four JavaScript variants of a two-player
triangular-board game synchronised through a shared remote store:

* script.js, first half  ("variant A", pending-draw policy): a 10-row
  board, a line catalogue of rows plus the two diagonal families anchored
  at the top edge, fills through a click handler that reads a local
  snapshot, and completed lines resolved by explicit click ("eligible"
  overlays).
* script.js, second half ("variant B", immediate-claim policy): the same
  board, a larger line catalogue (rows, columns, both diagonal families
  anchored on two edges), with completed lines claimed at once by
  processAfterFill.
* unnamed/part_000, first half ("variant C"): a 0-indexed 10-row board,
  an allowedLines array, fills committed through runTransaction (onFill)
  and lines submitted by gesture (tryLine).
* unnamed/part_000, second half ("variant D"): handleCircleClick writes a
  fill plus a turn flip with no occupancy check, and updateGameState
  recomputes scores from rows wholly owned by one player.

Every definition below is a shallow embedding of the corresponding
JavaScript, with machine loops rendered as takeWhile over an index range
that provably covers the loop, JavaScript objects rendered as functions
into Option, and absent values rendered as Option.none.
-/

/-! ### Generic list lemmas used by the geometry proofs -/

/-! ### script.js variant A: board geometry (policy (a), top-anchored diagonals)

The source fixes ROW_COUNT = 10; the loops themselves are uniform in the
row count, so the embedding keeps the row count N as a parameter and the
concrete catalogue of the file is catalogA 10.  Board rows are 1..N and
row r holds columns 1..N+1-r.  Cell keys "r_c" are embedded as pairs. -/

/-! ### part_000 variant C: board geometry (buildLines)

The board of part_000 is 0-indexed: rows 0..9, row r holding columns
0..9-r, cell keys "r-c".  The slash-diagonal loops decrement the column
down to -1, so coordinates are embedded as integers. -/

/-- Stable line identifiers of variant A: the JavaScript keys row-r,
diag_bslash-c and diag_fslash-c. -/
inductive LineIdA : Type where
  | row : ℕ → LineIdA
  | bslash : ℕ → LineIdA
  | fslash : ℕ → LineIdA
deriving DecidableEq, Repr

/-- Cells of the row line r: boardStructure row r has columns 1..N+1-r. -/
def rowCellsA (N r : ℕ) : List (ℕ × ℕ) :=
  (List.range' 1 (N + 1 - r)).map fun c => (r, c)

/-- collectDiagBackslash(1, c): push (r, c), r++, c++ while r ≤ N and
c ≤ N+1-r.  The loop always stops within N+1 iterations, so takeWhile
over an index range of that length is the loop. -/
def diagBCellsA (N c : ℕ) : List (ℕ × ℕ) :=
  ((List.range (N + 1)).map fun i => (1 + i, c + i)).takeWhile
    fun p => decide (p.1 ≤ N) && decide (p.2 ≤ N + 1 - p.1)

/-- collectDiagSlash(1, c): push (r, c), r++, c-- while r ≤ N and c ≥ 1,
breaking as soon as c exceeds N+1-r. -/
def diagFCellsA (N c : ℕ) : List (ℕ × ℕ) :=
  ((List.range (N + 1)).map fun i => (1 + i, c - i)).takeWhile
    fun p => decide (p.1 ≤ N) && decide (1 ≤ p.2) && decide (p.2 ≤ N + 1 - p.1)

/-- ALL_LINES of script.js variant A: every row r = 1..N (no length
filter on rows), then the backslash diagonals started at (1, c) kept when
longer than one cell, then the slash diagonals started at (1, c) kept
when longer than one cell. -/
def catalogA (N : ℕ) : List (LineIdA × List (ℕ × ℕ)) :=
  ((List.range' 1 N).map fun r => (LineIdA.row r, rowCellsA N r))
  ++ ((List.range' 1 N).filterMap fun c =>
        if 1 < (diagBCellsA N c).length then some (LineIdA.bslash c, diagBCellsA N c) else none)
  ++ ((List.range' 1 N).filterMap fun c =>
        if 1 < (diagFCellsA N c).length then some (LineIdA.fslash c, diagFCellsA N c) else none)

/-- Horizontal line of row r (rows 0..8 are pushed, each with columns
0..9-r). -/
def rowP0 (r : ℕ) : List (ℤ × ℤ) :=
  (List.range (10 - r)).map fun c => ((r : ℤ), (c : ℤ))

/-- Down-right diagonal of buildLines: push (r, c), r++, c++ while r < 10
and c < 10 - r. -/
def diagSECells (r0 c0 : ℤ) : List (ℤ × ℤ) :=
  ((List.range 11).map fun i => (r0 + i, c0 + i)).takeWhile
    fun p => decide (p.1 < 10) && decide (p.2 < 10 - p.1)

/-- Down-left diagonal of buildLines: push (r, c), r++, c-- while r < 10
and c ≥ 0 (no upper column bound is checked in this loop). -/
def diagSWCells (r0 c0 : ℤ) : List (ℤ × ℤ) :=
  ((List.range 11).map fun i => (r0 + i, c0 - i)).takeWhile
    fun p => decide (p.1 < 10) && decide (0 ≤ p.2)

/-- Rows 0..8 pushed by buildLines (the length-one row 9 is not visited). -/
def rowLinesP0 : List (List (ℤ × ℤ)) :=
  (List.range 9).map rowP0

/-- Down-right diagonals from the top edge, start = 0..8, kept when
longer than one cell. -/
def seTopLinesP0 : List (List (ℤ × ℤ)) :=
  (List.range 9).filterMap fun s =>
    if 1 < (diagSECells 0 (s : ℤ)).length then some (diagSECells 0 (s : ℤ)) else none

/-- Down-right diagonals from the left edge, start = 1..8, kept when
longer than one cell. -/
def seLeftLinesP0 : List (List (ℤ × ℤ)) :=
  (List.range' 1 8).filterMap fun s =>
    if 1 < (diagSECells (s : ℤ) 0).length then some (diagSECells (s : ℤ) 0) else none

/-- Down-left diagonals from the top edge, start = 1..9, kept when longer
than one cell. -/
def swTopLinesP0 : List (List (ℤ × ℤ)) :=
  (List.range' 1 9).filterMap fun s =>
    if 1 < (diagSWCells 0 (s : ℤ)).length then some (diagSWCells 0 (s : ℤ)) else none

/-- Down-left diagonals from the hypotenuse, start row 1..8 at column
9 - start, kept when longer than one cell. -/
def swRightLinesP0 : List (List (ℤ × ℤ)) :=
  (List.range' 1 8).filterMap fun s =>
    if 1 < (diagSWCells (s : ℤ) (9 - (s : ℤ))).length
    then some (diagSWCells (s : ℤ) (9 - (s : ℤ))) else none

/-- allowedLines of part_000, in the push order of buildLines. -/
def allowedLinesP0 : List (List (ℤ × ℤ)) :=
  rowLinesP0 ++ seTopLinesP0 ++ seLeftLinesP0 ++ swTopLinesP0 ++ swRightLinesP0

/-! ### script.js variant B: board geometry (rows, columns, both diagonal
families anchored on two edges), fixed at ROW_COUNT = 10 as in the file. -/

/-- Stable line identifiers of variant B. -/
inductive LineIdB : Type where
  | row : ℕ → LineIdB
  | col : ℕ → LineIdB
  | bTop : ℕ → LineIdB
  | bLeft : ℕ → LineIdB
  | fTop : ℕ → LineIdB
  | fRight : ℕ → LineIdB
deriving DecidableEq

/-- Column line c of variant B: the cells (r, c) with r = 1..10 and
c ≤ 11 - r, in row order. -/
def colCellsB (c : ℕ) : List (ℕ × ℕ) :=
  ((List.range' 1 10).filter fun r => decide (c ≤ 11 - r)).map fun r => (r, c)

/-- collectDiagBackslash of variant B from an arbitrary start. -/
def diagBCellsB (r0 c0 : ℕ) : List (ℕ × ℕ) :=
  ((List.range 11).map fun i => (r0 + i, c0 + i)).takeWhile
    fun p => decide (p.1 ≤ 10) && decide (p.2 ≤ 11 - p.1)

/-- collectDiagSlash of variant B from an arbitrary start (the loop
breaks once the column exceeds 11 - row). -/
def diagFCellsB (r0 c0 : ℕ) : List (ℕ × ℕ) :=
  ((List.range 11).map fun i => (r0 + i, c0 - i)).takeWhile
    fun p => decide (p.1 ≤ 10) && decide (1 ≤ p.2) && decide (p.2 ≤ 11 - p.1)

/-- ALL_LINES / LINE_TO_KEYS of variant B, in the assembly order of the
file: rows 1..10, columns 1..10 kept when longer than one cell, backslash
diagonals from the top edge (c = 1..10) and the left edge (r = 2..10),
slash diagonals from the top edge (c = 1..10) and the right edge
(r = 2..10, start column 11 - r), diagonals kept when longer than one
cell. -/
def catalogB : List (LineIdB × List (ℕ × ℕ)) :=
  ((List.range' 1 10).map fun r => (LineIdB.row r, rowCellsA 10 r))
  ++ ((List.range' 1 10).filterMap fun c =>
        if 1 < (colCellsB c).length then some (LineIdB.col c, colCellsB c) else none)
  ++ ((List.range' 1 10).filterMap fun c =>
        if 1 < (diagBCellsB 1 c).length then some (LineIdB.bTop c, diagBCellsB 1 c) else none)
  ++ ((List.range' 2 9).filterMap fun r =>
        if 1 < (diagBCellsB r 1).length then some (LineIdB.bLeft r, diagBCellsB r 1) else none)
  ++ ((List.range' 1 10).filterMap fun c =>
        if 1 < (diagFCellsB 1 c).length then some (LineIdB.fTop c, diagFCellsB 1 c) else none)
  ++ ((List.range' 2 9).filterMap fun r =>
        if 1 < (diagFCellsB r (11 - r)).length then some (LineIdB.fRight r, diagFCellsB r (11 - r)) else none)

/-! ### script.js shared state shape and helpers

Both script.js variants persist {cells, turn, scores, lines}; cells maps
the key "r_c" to 0, 1 or 2 (absent for keys off the board), turn is a
player number, lines maps a line identifier to the claiming player. -/

/-- The 55 valid board keys, rows 1..10, row r holding columns
1..11-r. -/
def boardKeys10 : List (ℕ × ℕ) :=
  (List.range' 1 10).flatMap fun r => (List.range' 1 (11 - r)).map fun c => (r, c)

/-- nextTurn of both script.js variants: localPlayer === 1 ? 2 : 1. -/
def otherPlayer (p : ℕ) : ℕ :=
  if p = 1 then 2 else 1

/-- Shared game state of variant B. -/
structure StateB : Type where
  cells : ℕ × ℕ → Option ℕ
  turn : ℕ
  scores : ℕ → ℕ
  lines : LineIdB → Option ℕ

/-- buildInitialState of variant B: every valid cell 0, turn 1, both
scores 0, no drawn lines. -/
def buildInitialStateB : StateB where
  cells := fun k => if k ∈ boardKeys10 then some 0 else none
  turn := 1
  scores := fun _ => 0
  lines := fun _ => none

/-- snapshotValue of script.js: a local variable val is set to null, a
once-only subscription is registered, and val is returned at once.  Per
the event-driven store model of the spec (sections 5, 6 and 9) the
subscription callback runs on a later event-loop turn, after
snapshotValue has returned, so the returned value is always the initial
null; the second component records the store value the deferred callback
will eventually observe. -/
def snapshotValueB (store : StateB) : Option StateB × StateB :=
  (none, store)

/-- The cells/key update issued by the variant-B click handler. -/
def fillCellB (p : ℕ) (key : ℕ × ℕ) (s : StateB) : StateB :=
  { s with cells := fun k => if k = key then some p else s.cells k }

/-- completedThisMove of processAfterFill: catalogued lines through the
filled key, not already drawn, whose cells are all nonzero (occupancy by
either player). -/
def completedLinesB (filledKey : ℕ × ℕ) (s : StateB) : List (LineIdB × List (ℕ × ℕ)) :=
  catalogB.filter fun e =>
    decide (filledKey ∈ e.2) && (s.lines e.1).isNone &&
    (e.2.all fun k => !(s.cells k == some 0))

/-- processAfterFill of variant B: when any line completed, record every
completed line for the acting player and add the sum of their lengths to
that player, leaving turn unchanged; otherwise switch turn. -/
def processAfterFillB (p : ℕ) (filledKey : ℕ × ℕ) (s : StateB) : StateB :=
  if 0 < (completedLinesB filledKey s).length then
    { s with
      lines := fun l => if l ∈ (completedLinesB filledKey s).map Prod.fst then some p else s.lines l,
      scores := fun q =>
        if q = p then s.scores p + ((completedLinesB filledKey s).map fun e => e.2.length).sum
        else s.scores q }
  else
    { s with turn := otherPlayer p }

/-- Variant-B circle click handler, parametrised by the snapshot the
handler read: reject when the read state says it is not our turn or the
cell is not 0 (an off-board key reads as absent and is also rejected);
otherwise write the cell and run processAfterFill on the store. -/
def clickFillB (p : ℕ) (key : ℕ × ℕ) (snapshot : Option StateB) (store : StateB) : Option StateB :=
  if (snapshot.getD buildInitialStateB).turn ≠ p then none
  else if (snapshot.getD buildInitialStateB).cells key ≠ some 0 then none
  else some (processAfterFillB p key (fillCellB p key store))

/-- The handler as wired in the file: the snapshot comes from
snapshotValue. -/
def onCircleClickB (p : ℕ) (key : ℕ × ℕ) (store : StateB) : Option StateB :=
  clickFillB p key (snapshotValueB store).1 store

/-- The handler evaluated against an in-sync snapshot of the store. -/
def acceptedFillB (p : ℕ) (key : ℕ × ℕ) (s : StateB) : Option StateB :=
  clickFillB p key (some s) s

/-- Exchange the two players everywhere on the board, preserving
occupancy. -/
def swapPlayersB (s : StateB) : StateB :=
  { s with cells := fun k => (s.cells k).map fun v => if v = 1 then 2 else if v = 2 then 1 else v }

/-- A store in which it is the turn of player 2. -/
def storeTurn2B : StateB :=
  { buildInitialStateB with turn := 2 }

/-! ### script.js variant A: shared state, fill handler, pending lines

Variant A persists the same {cells, turn, scores, lines} shape; turn is
embedded as Option so that the locked value null of the data model is
representable.  The eligible lines produced by a fill are kept in the
client-local pendingLines list and never written to the store. -/

/-- Shared game state of variant A. -/
structure StateA : Type where
  cells : ℕ × ℕ → Option ℕ
  turn : Option ℕ
  scores : ℕ → ℕ
  lines : LineIdA → Option ℕ

/-- buildInitialState of variant A. -/
def buildInitialStateA : StateA where
  cells := fun k => if k ∈ boardKeys10 then some 0 else none
  turn := some 1
  scores := fun _ => 0
  lines := fun _ => none

/-- snapshotValue of variant A; see snapshotValueB for the event-loop
reading. -/
def snapshotValueA (store : StateA) : Option StateA × StateA :=
  (none, store)

/-- The cells/key update issued by the variant-A click handler. -/
def fillCellA (p : ℕ) (key : ℕ × ℕ) (s : StateA) : StateA :=
  { s with cells := fun k => if k = key then some p else s.cells k }

/-- Variant-A circle click handler, parametrised by the snapshot it read:
reject when the read state says it is not our turn or pendingLines is
nonempty, reject when the read cell is not 0, otherwise write the cell
into the store. -/
def clickFillA (p : ℕ) (pending : List LineIdA) (key : ℕ × ℕ) (snapshot : Option StateA)
    (store : StateA) : Option StateA :=
  if (snapshot.getD buildInitialStateA).turn ≠ some p ∨ pending ≠ [] then none
  else if (snapshot.getD buildInitialStateA).cells key ≠ some 0 then none
  else some (fillCellA p key store)

/-- The variant-A handler as wired in the file: the snapshot comes from
snapshotValue. -/
def onCircleClickA (p : ℕ) (pending : List LineIdA) (key : ℕ × ℕ) (store : StateA) :
    Option StateA :=
  clickFillA p pending key (snapshotValueA store).1 store

/-- newlyEligible of checkEligibleAfterFill: catalogued lines through the
filled key, not already drawn, with every cell nonzero, read from the
fresh store value. -/
def eligibleLinesA (filledKey : ℕ × ℕ) (store : StateA) : List LineIdA :=
  ((catalogA 10).filter fun e =>
    decide (filledKey ∈ e.2) && (store.lines e.1).isNone &&
    (e.2.all fun k => !(store.cells k == some 0))).map Prod.fst

/-- checkEligibleAfterFill: when at least one line is eligible, keep the
store untouched and set the client-local pendingLines to the eligible
list; otherwise switch turn in the store. -/
def checkEligibleAfterFillA (p : ℕ) (filledKey : ℕ × ℕ) (store : StateA)
    (pending : List LineIdA) : StateA × List LineIdA :=
  if 0 < (eligibleLinesA filledKey store).length then (store, eligibleLinesA filledKey store)
  else ({ store with turn := some (otherPlayer p) }, pending)

/-- LINE_TO_KEYS lookup of variant A. -/
def lineKeysA (lid : LineIdA) : List (ℕ × ℕ) :=
  (((catalogA 10).find? fun e => decide (e.1 = lid)).getD (lid, [])).2

/-- drawOneEligibleLine: reads the snapshot (always the initial-state
fallback), writes lines/lineId = localPlayer and
scores/localPlayer = read score + line length into the store, and removes
the line from the client-local pendingLines. -/
def drawOneEligibleLineA (p : ℕ) (lid : LineIdA) (pending : List LineIdA) (store : StateA) :
    StateA × List LineIdA :=
  ({ store with
      lines := fun l => if l = lid then some p else store.lines l,
      scores := fun q =>
        if q = p then ((snapshotValueA store).1.getD buildInitialStateA).scores p + (lineKeysA lid).length
        else store.scores q },
   pending.filter fun l => decide (l ≠ lid))

/-- finalizeAfterAllLines: pass the turn to the other player. -/
def finalizeAfterAllLinesA (p : ℕ) (store : StateA) : StateA :=
  { store with turn := some (otherPlayer p) }

/-- The overlay click handler for an eligible line: ignore the click when
the line is not pending, otherwise draw it and, when no pending line
remains, finalize. -/
def claimLineClickA (p : ℕ) (lid : LineIdA) (pending : List LineIdA) (store : StateA) :
    StateA × List LineIdA :=
  if lid ∉ pending then (store, pending)
  else if (drawOneEligibleLineA p lid pending store).2.isEmpty then
    (finalizeAfterAllLinesA p (drawOneEligibleLineA p lid pending store).1,
     (drawOneEligibleLineA p lid pending store).2)
  else drawOneEligibleLineA p lid pending store

/-! ### part_000 variant C: transactional fills and gesture lines

Keys are the 0-indexed "r-c" pairs of part_000, players are the colors
blue and red, turn is nullable (onFill locks it to null). -/

/-- The two players of part_000. -/
inductive PlayerC : Type where
  | blue : PlayerC
  | red : PlayerC
deriving DecidableEq

/-- A drawn line record {from, to, player} of part_000 (the JavaScript
field names from/to are reserved words here, hence lfrom/lto). -/
structure LineRecC : Type where
  lfrom : ℤ × ℤ
  lto : ℤ × ℤ
  player : PlayerC
deriving DecidableEq

/-- Shared game state of part_000. -/
structure StateC : Type where
  board : ℤ × ℤ → Option PlayerC
  lines : List LineRecC
  score : PlayerC → ℕ
  turn : Option PlayerC

/-- The local fallback state of part_000: empty board, no lines, zero
scores, turn blue. -/
def initialStateC : StateC where
  board := fun _ => none
  lines := []
  score := fun _ => 0
  turn := some PlayerC.blue

/-- The mutation performed inside the onFill transaction: set the cell to
the acting player and lock the turn to null. -/
def fillMoveC (playerId : PlayerC) (key : ℤ × ℤ) (d : StateC) : StateC :=
  { d with board := fun k => if k = key then some playerId else d.board k, turn := none }

/-- The transaction function passed to runTransaction by onFill: the
store supplies the current value (or absent, replaced by the local
fallback); the turn and occupancy checks are re-evaluated on that value,
aborting (returning undefined) when they fail. -/
def onFillTxn (playerId : PlayerC) (key : ℤ × ℤ) (localState : StateC)
    (data : Option StateC) : Option StateC :=
  if (data.getD localState).turn ≠ some playerId then none
  else if ((data.getD localState).board key).isSome then none
  else some (fillMoveC playerId key (data.getD localState))

/-- runTransaction against the store: the transaction function is applied
to the current value; an abort leaves the store unchanged. -/
def runTxn (txn : Option StateC → Option StateC) (cur : Option StateC) : Option StateC :=
  match txn cur with
  | some v => some v
  | none => cur

/-- The gesture-path matcher of tryLine: the catalogued segment has the
length of the path and agrees with it pointwise forwards or backwards. -/
def lineMatches (seg path : List (ℤ × ℤ)) : Bool :=
  decide (seg.length = path.length) &&
  ((List.range seg.length).all fun i =>
    seg.get? i == path.get? i || seg.get? i == path.get? (path.length - 1 - i))

/-- allowedLines.find of tryLine. -/
def findMatchC (path : List (ℤ × ℤ)) : Option (List (ℤ × ℤ)) :=
  allowedLinesP0.find? fun seg => lineMatches seg path

/-- The duplicate check of tryLine: some already drawn line has the same
endpoints as the matched segment (match[0] and match.at(-1); catalogued
segments are nonempty, so the defaulted head and last are those cells). -/
def existsLineC (state : StateC) (mtch : List (ℤ × ℤ)) : Bool :=
  state.lines.any fun l => decide (l.lfrom = mtch.headD (0, 0) ∧ l.lto = mtch.getLastD (0, 0))

/-- The mutation performed inside the tryLine transaction: push the line
record, add the segment length to the acting player, keep the turn. -/
def lineMoveC (playerId : PlayerC) (mtch : List (ℤ × ℤ)) (d : StateC) : StateC :=
  { d with
    lines := d.lines ++ [⟨mtch.headD (0, 0), mtch.getLastD (0, 0), playerId⟩],
    score := fun q => if q = playerId then d.score playerId + mtch.length else d.score q,
    turn := some playerId }

/-- tryLine against an in-sync store value: no matching allowed line or
an already-drawn duplicate leaves the state unchanged, otherwise the line
transaction is applied. -/
def tryLineC (playerId : PlayerC) (path : List (ℤ × ℤ)) (state : StateC) : StateC :=
  match findMatchC path with
  | none => state
  | some mtch => if existsLineC state mtch then state else lineMoveC playerId mtch state

/-- A part_000 state in which the two-cell diagonal (7,0)-(8,1) has
already been drawn by blue. -/
def claimedStateC : StateC :=
  { initialStateC with lines := [⟨(7, 0), (8, 1), PlayerC.blue⟩] }

/-! ### part_000 variant D: unguarded fill and ownership scoring -/

/-- Shared game state of variant D: board and currentTurn (scores are
not stored; they are recomputed by updateGameState). -/
structure StateD : Type where
  board : ℕ → ℕ → Option ℕ
  currentTurn : ℕ

/-- handleCircleClick of variant D: only the turn is checked; the cell at
(row, col) is overwritten with the acting player and the turn flips. -/
def handleCircleClickD (myPlayerNumber : ℕ) (row col : ℕ) (s : StateD) : StateD :=
  if myPlayerNumber ≠ s.currentTurn then s
  else
    { board := fun r c => if r = row ∧ c = col then some myPlayerNumber else s.board r c,
      currentTurn := if myPlayerNumber = 1 then 2 else 1 }

/-- Row completeness for one player in updateGameState: every cell of the
row equals that player (a cell of the other player, or an absent cell,
disqualifies the row). -/
def rowCompleteD (board : ℕ → ℕ → Option ℕ) (pl row : ℕ) : Bool :=
  (List.range (10 - row)).all fun col => board row col == some pl

/-- The score recomputation of updateGameState: for each row, its width
is credited to a player exactly when the whole row is owned by that
player. -/
def scoresD (board : ℕ → ℕ → Option ℕ) : ℕ × ℕ :=
  (List.range 10).foldl
    (fun acc row =>
      ((if rowCompleteD board 1 row then acc.1 + (10 - row) else acc.1),
       (if rowCompleteD board 2 row then acc.2 + (10 - row) else acc.2)))
    (0, 0)

/-- A variant-D board: the top row fully owned by player 1, all other
cells empty. -/
def boardOwnedD : ℕ → ℕ → Option ℕ :=
  fun r c => if r = 0 ∧ c < 10 then some 1 else none

/-- A variant-D board with the same occupancy as boardOwnedD but mixed
ownership: cell (0,0) owned by player 2, the rest of the top row by
player 1. -/
def boardMixedD : ℕ → ℕ → Option ℕ :=
  fun r c => if r = 0 ∧ c = 0 then some 2 else if r = 0 ∧ c < 10 then some 1 else none

/-- A variant-D state whose cell (0,0) is already owned by player 2 while
it is the turn of player 1. -/
def occupiedStateD : StateD where
  board := fun r c => if r = 0 ∧ c = 0 then some 2 else none
  currentTurn := 1

/-- A part_000 state in which cell (0,0) is already owned by red while it
is the turn of blue. -/
def occupiedStateC : StateC :=
  { initialStateC with
    board := fun k => if k = ((0 : ℤ), (0 : ℤ)) then some PlayerC.red else none }
/-- takeWhile keeps exactly a prefix on which the predicate holds when the
element right after that prefix falsifies it. -/
theorem takeWhile_append_boundary {α : Type} (p : α → Bool) (l1 : List α) (x : α)
    (l2 : List α) (h1 : ∀ a ∈ l1, p a = true) (hx : p x = false) :
    (l1 ++ x :: l2).takeWhile p = l1 := by
  induction l1 with
  | nil => simp [List.takeWhile_cons, hx]
  | cons a t ih =>
      have ha : p a = true := h1 a (by simp)
      simp only [List.cons_append, List.takeWhile_cons, ha, if_pos]
      exact congrArg (a :: ·) (ih fun b hb => h1 b (by simp [hb]))

/-- Splitting List.range at an interior point. -/
theorem range_split (M K : ℕ) (h : K ≤ M) :
    List.range M = List.range K ++ List.range' K (M - K) := by
  have h2 := List.range'_append 0 K (M - K) 1
  simp only [Nat.one_mul, Nat.zero_add] at h2
  rw [List.range_eq_range', List.range_eq_range', h2]
  congr 1
  omega

/-- takeWhile over List.range with a predicate that holds exactly up to a
boundary index K. -/
theorem takeWhile_range_boundary (q : ℕ → Bool) (M K : ℕ) (hKM : K + 1 < M)
    (hall : ∀ i, i ≤ K → q i = true) (hK1 : q (K + 1) = false) :
    (List.range M).takeWhile q = List.range (K + 1) := by
  have hsplit : List.range M = List.range (K + 1) ++ List.range' (K + 1) (M - (K + 1)) :=
    range_split M (K + 1) (by omega)
  have hpos : M - (K + 1) = (M - (K + 2)) + 1 := by omega
  rw [hsplit, hpos, List.range'_succ]
  rw [takeWhile_append_boundary q _ _ _ ?h1 hK1]
  intro a ha
  exact hall a (by simpa [Nat.lt_succ_iff] using List.mem_range.mp ha)

/-- filterMap is a map when the function is some everywhere on the list. -/
theorem filterMap_all_some {α β : Type} (f : α → Option β) (g : α → β) (l : List α)
    (h : ∀ a ∈ l, f a = some (g a)) : l.filterMap f = l.map g := by
  induction l with
  | nil => rfl
  | cons a t ih =>
      simp only [List.filterMap_cons, h a (by simp), List.map_cons]
      exact congrArg (g a :: ·) (ih fun b hb => h b (by simp [hb]))

/-- filterMap is empty when the function is none everywhere on the list. -/
theorem filterMap_all_none {α β : Type} (f : α → Option β) (l : List α)
    (h : ∀ a ∈ l, f a = none) : l.filterMap f = [] := by
  induction l with
  | nil => rfl
  | cons a t ih =>
      simp only [List.filterMap_cons, h a (by simp)]
      exact ih fun b hb => h b (by simp [hb])

theorem diagBCellsA_eq (N c : ℕ) (h1 : 1 ≤ c) (h2 : c ≤ N) :
    diagBCellsA N c = (List.range ((N - c) / 2 + 1)).map fun i => (1 + i, c + i) := by
  unfold diagBCellsA
  rw [List.takeWhile_map]
  rw [takeWhile_range_boundary _ (N + 1) ((N - c) / 2) (by omega) ?hall ?hbd]
  case hall =>
    intro i hi
    simp only [Function.comp_apply, Bool.and_eq_true, decide_eq_true_eq]
    omega
  case hbd =>
    simp only [Function.comp_apply, Bool.and_eq_true, decide_eq_true_eq]
    by_contra hcon
    rw [Bool.not_eq_false, Bool.and_eq_true, decide_eq_true_eq, decide_eq_true_eq] at hcon
    omega

theorem diagBCellsA_length (N c : ℕ) (h1 : 1 ≤ c) (h2 : c ≤ N) :
    (diagBCellsA N c).length = (N - c) / 2 + 1 := by
  rw [diagBCellsA_eq N c h1 h2]
  simp

theorem diagFCellsA_eq (N c : ℕ) (h1 : 1 ≤ c) (h2 : c ≤ N) :
    diagFCellsA N c = (List.range c).map fun i => (1 + i, c - i) := by
  unfold diagFCellsA
  rw [List.takeWhile_map]
  have hc : c = (c - 1) + 1 := by omega
  rw [takeWhile_range_boundary _ (N + 1) (c - 1) (by omega) ?hall ?hbd]
  · rw [← hc]
  case hall =>
    intro i hi
    simp only [Function.comp_apply, Bool.and_eq_true, decide_eq_true_eq]
    omega
  case hbd =>
    simp only [Function.comp_apply, Bool.and_eq_true, decide_eq_true_eq]
    by_contra hcon
    rw [Bool.not_eq_false, Bool.and_eq_true, Bool.and_eq_true] at hcon
    simp only [decide_eq_true_eq] at hcon
    omega

theorem diagFCellsA_length (N c : ℕ) (h1 : 1 ≤ c) (h2 : c ≤ N) :
    (diagFCellsA N c).length = c := by
  rw [diagFCellsA_eq N c h1 h2]
  simp

theorem rowCellsA_length (N r : ℕ) : (rowCellsA N r).length = N + 1 - r := by
  simp [rowCellsA]

/-- Row count of the range' 1 N split used for both diagonal families. -/
theorem range'_split_at (N K : ℕ) (h : K ≤ N) :
    List.range' 1 N = List.range' 1 K ++ List.range' (1 + K) (N - K) := by
  have h2 := List.range'_append 1 K (N - K) 1
  simp only [Nat.one_mul] at h2
  have h3 : N - K + K = N := by omega
  rw [h3] at h2
  exact h2.symm

/-- Count of kept backslash diagonals: exactly the starts c = 1..N-2. -/
theorem catalogA_bslash_count (N : ℕ) (hN : 2 ≤ N) :
    ((List.range' 1 N).filterMap fun c =>
      if 1 < (diagBCellsA N c).length then some (LineIdA.bslash c, diagBCellsA N c) else none).length
      = N - 2 := by
  rw [range'_split_at N (N - 2) (by omega), List.filterMap_append]
  rw [filterMap_all_some _
      (fun c => (LineIdA.bslash c, diagBCellsA N c)) _ ?hsome]
  rw [filterMap_all_none _ _ ?hnone]
  · simp
  case hsome =>
    intro c hc
    have hmem := List.mem_range'_1.mp hc
    have hlen := diagBCellsA_length N c (by omega) (by omega)
    rw [if_pos (by omega)]
  case hnone =>
    intro c hc
    have hmem := List.mem_range'_1.mp hc
    have hc1 : 1 ≤ c := by omega
    have hc2 : c ≤ N := by omega
    have hlen := diagBCellsA_length N c hc1 hc2
    rw [if_neg (by omega)]

/-- Count of kept slash diagonals: exactly the starts c = 2..N. -/
theorem catalogA_fslash_count (N : ℕ) (hN : 2 ≤ N) :
    ((List.range' 1 N).filterMap fun c =>
      if 1 < (diagFCellsA N c).length then some (LineIdA.fslash c, diagFCellsA N c) else none).length
      = N - 1 := by
  rw [range'_split_at N 1 (by omega), List.filterMap_append]
  rw [filterMap_all_none _ _ ?hnone]
  rw [filterMap_all_some _
      (fun c => (LineIdA.fslash c, diagFCellsA N c)) _ ?hsome]
  · simp
  case hsome =>
    intro c hc
    have hmem := List.mem_range'_1.mp hc
    have hlen := diagFCellsA_length N c (by omega) (by omega)
    rw [if_pos (by omega)]
  case hnone =>
    intro c hc
    have hmem := List.mem_range'_1.mp hc
    have hc1 : c = 1 := by omega
    subst hc1
    have hlen := diagFCellsA_length N 1 (by omega) (by omega)
    rw [if_neg (by omega)]

/-- C8: under policy (a) (only diagonals anchored at the top edge, the
variant-A generator of script.js), an N-row triangular board yields
exactly 3N-3 catalogued lines for every N ≥ 2. -/
theorem catalogA_policyA_count (N : ℕ) (hN : 2 ≤ N) : (catalogA N).length = 3 * N - 3 := by
  unfold catalogA
  rw [List.length_append, List.length_append, List.length_map,
      catalogA_bslash_count N hN, catalogA_fslash_count N hN]
  simp only [List.length_range']
  omega

/-- Witness for C8 at the concrete board size of the source: N = 10 gives
exactly 27 lines. -/
theorem catalogA_policyA_count_witness : 2 ≤ 10 ∧ (catalogA 10).length = 27 :=
  ⟨by norm_num, by simpa using catalogA_policyA_count 10 (by norm_num)⟩

/-- Option.map pushed through a guard. -/
theorem optionMap_ite {α β : Type} (P : Prop) [Decidable P] (f : α → β) (x : α) :
    (if P then some x else none).map f = if P then some (f x) else none := by
  by_cases h : P <;> simp [h]

/-- filterMap with a guarded some is a map over a filter. -/
theorem filterMap_guard_map {α β : Type} (P : α → Prop) [DecidablePred P] (g : α → β)
    (l : List α) :
    (l.filterMap fun a => if P a then some (g a) else none)
      = (l.filter fun a => decide (P a)).map g := by
  induction l with
  | nil => rfl
  | cons a t ih => by_cases h : P a <;> simp [List.filterMap_cons, List.filter_cons, h, ih]

/-- Identifiers of the variant-A catalogue are pairwise distinct for every
board size: the three families use distinct constructors and each family
is indexed by a duplicate-free range. -/
theorem catalogA_ids_nodup (N : ℕ) : ((catalogA N).map Prod.fst).Nodup := by
  unfold catalogA
  rw [List.map_append, List.map_append, List.map_map, List.map_filterMap, List.map_filterMap]
  simp only [optionMap_ite, Function.comp_def]
  rw [filterMap_guard_map (fun c => 1 < (diagBCellsA N c).length) LineIdA.bslash,
      filterMap_guard_map (fun c => 1 < (diagFCellsA N c).length) LineIdA.fslash]
  have hrow : Function.Injective LineIdA.row := fun a b h => by injection h
  have hbs : Function.Injective LineIdA.bslash := fun a b h => by injection h
  have hfs : Function.Injective LineIdA.fslash := fun a b h => by injection h
  have hnr : (List.range' 1 N).Nodup := List.nodup_range' 1 N 1
  refine List.Nodup.append (List.Nodup.append (hnr.map hrow) ((hnr.filter _).map hbs) ?d1)
      ((hnr.filter _).map hfs) ?d2
  case d1 =>
    intro a ha hb
    simp only [List.mem_map, List.mem_filter] at ha hb
    obtain ⟨c1, _, hc1⟩ := ha
    obtain ⟨c2, _, hc2⟩ := hb
    rw [← hc2] at hc1
    exact LineIdA.noConfusion hc1
  case d2 =>
    intro a ha hb
    simp only [List.mem_map, List.mem_append, List.mem_filter] at ha hb
    obtain ⟨c2, _, hc2⟩ := hb
    rcases ha with ⟨r1, _, hr1⟩ | ⟨c1, _, hc1⟩
    · rw [← hc2] at hr1
      exact LineIdA.noConfusion hr1
    · rw [← hc2] at hc1
      exact LineIdA.noConfusion hc1

/-- C7 (counterexample): the variant-A catalogue at the concrete board
size N = 10 contains the bottom-row line row-10 with a single cell, so
the catalogue does not contain only lines of length ≥ 2. -/
theorem catalogA_contains_length_one_line :
    (LineIdA.row 10, rowCellsA 10 10) ∈ catalogA 10 ∧ (rowCellsA 10 10).length = 1 := by
  decide

/-- C7 (amended): for every board size N ≥ 2 the variant-A catalogue has
pairwise-distinct identifiers and every entry except the bottom-row entry
row-N has length ≥ 2; the bottom-row entry itself is catalogued with
length 1.  The part_000 catalogue contains only lines of length ≥ 2 and
no duplicate entry. -/
theorem catalog_nodup_and_min_length (N : ℕ) (hN : 2 ≤ N) :
    ((catalogA N).map Prod.fst).Nodup ∧
    (∀ e ∈ catalogA N, e.1 ≠ LineIdA.row N → 2 ≤ e.2.length) ∧
    ((LineIdA.row N, rowCellsA N N) ∈ catalogA N ∧ (rowCellsA N N).length = 1) ∧
    ((∀ l ∈ allowedLinesP0, 2 ≤ l.length) ∧ allowedLinesP0.Nodup) := by
  refine ⟨catalogA_ids_nodup N, ?len, ⟨?memrow, ?lenrow⟩, by decide⟩
  case len =>
    intro e he hne
    unfold catalogA at he
    have hdiag : ∀ (mk : ℕ → LineIdA) (cells : ℕ → List (ℕ × ℕ)) (l : List ℕ),
        e ∈ l.filterMap (fun c => if 1 < (cells c).length then some (mk c, cells c) else none) →
        2 ≤ e.2.length := by
      intro mk cells l hmem
      obtain ⟨c, _, hsome⟩ := List.mem_filterMap.mp hmem
      by_cases hlen : 1 < (cells c).length
      · rw [if_pos hlen] at hsome
        rw [← Option.some.inj hsome]
        show 2 ≤ (cells c).length
        omega
      · rw [if_neg hlen] at hsome
        exact absurd hsome (by simp)
    rcases List.mem_append.mp he with h12 | h3
    · rcases List.mem_append.mp h12 with h1 | h2
      · obtain ⟨r, hr, hre⟩ := List.mem_map.mp h1
        have hrr := List.mem_range'_1.mp hr
        have hrN : r ≠ N := by
          intro h
          rw [← hre] at hne
          exact hne (by rw [h])
        rw [← hre]
        simp only [rowCellsA_length]
        omega
      · exact hdiag _ _ _ h2
    · exact hdiag _ _ _ h3
  case memrow =>
    have hmem : (LineIdA.row N, rowCellsA N N)
        ∈ (List.range' 1 N).map fun r => (LineIdA.row r, rowCellsA N r) :=
      List.mem_map.mpr ⟨N, List.mem_range'_1.mpr ⟨by omega, by omega⟩, rfl⟩
    exact List.mem_append.mpr (Or.inl (List.mem_append.mpr (Or.inl hmem)))
  case lenrow =>
    rw [rowCellsA_length]
    omega

/-- Witness for the amended C7 at the concrete board size N = 10. -/
theorem catalog_nodup_and_min_length_witness :
    2 ≤ 10 ∧
    (((catalogA 10).map Prod.fst).Nodup ∧
    (∀ e ∈ catalogA 10, e.1 ≠ LineIdA.row 10 → 2 ≤ e.2.length) ∧
    ((LineIdA.row 10, rowCellsA 10 10) ∈ catalogA 10 ∧ (rowCellsA 10 10).length = 1) ∧
    ((∀ l ∈ allowedLinesP0, 2 ≤ l.length) ∧ allowedLinesP0.Nodup)) :=
  ⟨by norm_num, catalog_nodup_and_min_length 10 (by norm_num)⟩

/-- C9 (counterexample): the part_000 catalogue contains both the full
hypotenuse down-left diagonal (0,9)..(9,0) and, as a separate entry, its
sub-segment (1,8)..(9,0), so a catalogued line is a sub-segment of
another catalogued line. -/
theorem catalog_contains_subsegment :
    diagSWCells 0 9 ∈ allowedLinesP0 ∧ diagSWCells 1 8 ∈ allowedLinesP0 ∧
    diagSWCells 1 8 ≠ diagSWCells 0 9 ∧ diagSWCells 1 8 <:+: diagSWCells 0 9 := by
  decide

/-- C9 (amended): among the rows, the down-right diagonals and the
top-anchored down-left diagonals of part_000 no catalogued line is a
sub-segment of another, but every hypotenuse-anchored down-left diagonal
is a proper sub-segment of the catalogued top-anchored hypotenuse line
(0,9)..(9,0). -/
theorem catalog_subsegments_only_sw_right :
    ((rowLinesP0 ++ seTopLinesP0 ++ seLeftLinesP0 ++ swTopLinesP0).Pairwise
      fun a b => ¬ a <:+: b ∧ ¬ b <:+: a) ∧
    (swRightLinesP0.all fun l =>
      decide (l ≠ diagSWCells 0 9) && decide (l <:+: diagSWCells 0 9)) = true ∧
    diagSWCells 0 9 ∈ swTopLinesP0 := by
  decide

/-- C2 (counterexample): in variant D of part_000, with player 1 to move
and the valid position (0,0) already owned by player 2, the
handleCircleClick fill attempt on (0,0) is not rejected: the occupied
cell is overwritten with player 1 and the turn flips, so the resulting
state is not identical to the prior state. -/
theorem occupied_cell_overwritten :
    occupiedStateD.board 0 0 = some 2 ∧
    occupiedStateD.currentTurn = 1 ∧
    (handleCircleClickD 1 0 0 occupiedStateD).board 0 0 = some 1 ∧
    (handleCircleClickD 1 0 0 occupiedStateD).currentTurn = 2 := by
  refine ⟨rfl, rfl, by decide, by decide⟩

/-- Exchanging the two players preserves the zero test on a cell
value. -/
theorem swap_cell_zero (v : ℕ) :
    ((if v = 1 then 2 else if v = 2 then 1 else v) == 0) = (v == 0) := by
  by_cases h1 : v = 1
  · subst h1; rfl
  · by_cases h2 : v = 2
    · subst h2; rfl
    · rw [if_neg h1, if_neg h2]

/-- The completed-line scan of processAfterFill is invariant under
exchanging the two players on the board. -/
theorem completedLinesB_swap (filledKey : ℕ × ℕ) (s : StateB) :
    completedLinesB filledKey (swapPlayersB s) = completedLinesB filledKey s := by
  unfold completedLinesB
  apply List.filter_congr
  intro e _
  have hcell : ∀ k, (!((swapPlayersB s).cells k == some 0)) = (!(s.cells k == some 0)) := by
    intro k
    show (!((s.cells k).map fun v => if v = 1 then 2 else if v = 2 then 1 else v) == some 0) = _
    cases s.cells k with
    | none => rfl
    | some v => exact congrArg (fun b => !b) (swap_cell_zero v)
  have hall : (e.2.all fun k => !((swapPlayersB s).cells k == some 0))
      = (e.2.all fun k => !(s.cells k == some 0)) :=
    congrArg e.2.all (funext hcell)
  rw [show (swapPlayersB s).lines = s.lines from rfl, hall]

/-- C4 (amended): in processAfterFill of script.js, a catalogued line is
in the completed scan of a fill exactly when it passes through the filled
cell, is not already drawn, and has every cell occupied by either player
(an order-free membership characterisation); the scan and the resulting
scores are invariant under exchanging the two players, so completion and
its scoring there depend on occupancy only.  The score recomputation of
updateGameState in part_000, by contrast, is ownership-based (see the
counterexample). -/
theorem newly_complete_occupancy (s : StateB) (filledKey : ℕ × ℕ) (lid : LineIdB)
    (keyArr : List (ℕ × ℕ)) (p q : ℕ) :
    ((lid, keyArr) ∈ completedLinesB filledKey s ↔
      ((lid, keyArr) ∈ catalogB ∧ filledKey ∈ keyArr ∧ s.lines lid = none ∧
        ∀ k ∈ keyArr, s.cells k ≠ some 0)) ∧
    completedLinesB filledKey (swapPlayersB s) = completedLinesB filledKey s ∧
    (processAfterFillB p filledKey (swapPlayersB s)).scores q =
      (processAfterFillB p filledKey s).scores q := by
  refine ⟨?char, completedLinesB_swap filledKey s, ?sc⟩
  case char =>
    unfold completedLinesB
    rw [List.mem_filter]
    simp only [Bool.and_eq_true, decide_eq_true_eq, Option.isNone_iff_eq_none,
      List.all_eq_true, Bool.not_eq_true', beq_eq_false_iff_ne]
    tauto
  case sc =>
    unfold processAfterFillB
    rw [completedLinesB_swap]
    by_cases hc : 0 < (completedLinesB filledKey s).length
    · rw [if_pos hc, if_pos hc]
      rfl
    · rw [if_neg hc, if_neg hc]
      rfl

/-- C4 (counterexample): the score recomputation of updateGameState in
part_000 distinguishes two boards with identical occupancy: the top row
fully owned by player 1 scores 10 for player 1, while the same row fully
occupied but with mixed owners scores 0 for both players — so scoring
there depends on ownership, not on occupancy by either player. -/
theorem ownership_scoring_counterexample :
    ((List.range 10).all fun r => (List.range (10 - r)).all fun c =>
       (boardOwnedD r c).isSome == (boardMixedD r c).isSome) = true ∧
    scoresD boardOwnedD = (10, 0) ∧
    scoresD boardMixedD = (0, 0) ∧
    scoresD boardOwnedD ≠ scoresD boardMixedD := by
  refine ⟨by decide, by decide, by decide, by decide⟩

/-- C3: under the immediate-claim policy of script.js (processAfterFill),
an accepted fill that completes no line flips the turn to the other
player, and an accepted fill that completes at least one line leaves the
turn with the acting player. -/
theorem immediate_claim_turn_invariant (s : StateB) (p : ℕ) (key : ℕ × ℕ) (s2 : StateB)
    (h : acceptedFillB p key s = some s2) :
    (completedLinesB key (fillCellB p key s) = [] → s2.turn = otherPlayer p) ∧
    (completedLinesB key (fillCellB p key s) ≠ [] → s2.turn = p) := by
  unfold acceptedFillB clickFillB at h
  simp only [Option.getD_some] at h
  by_cases h1 : s.turn ≠ p
  · rw [if_pos h1] at h
    exact absurd h (by simp)
  · rw [if_neg h1] at h
    push_neg at h1
    by_cases h2 : s.cells key ≠ some 0
    · rw [if_pos h2] at h
      exact absurd h (by simp)
    · rw [if_neg h2] at h
      have hs2 := Option.some.inj h
      constructor
      · intro hc
        rw [← hs2]
        unfold processAfterFillB
        rw [if_neg (by rw [hc]; simp)]
      · intro hc
        rw [← hs2]
        unfold processAfterFillB
        rw [if_pos (List.length_pos.mpr hc)]
        exact h1

/-- Witness for C3: from the empty board, the accepted fill of player 1
on (1,1) completes no line and flips the turn to player 2. -/
theorem immediate_claim_turn_invariant_witness :
    (processAfterFillB 1 (1, 1) (fillCellB 1 (1, 1) buildInitialStateB)).turn = otherPlayer 1 :=
  (immediate_claim_turn_invariant buildInitialStateB 1 (1, 1) _ rfl).1 (by decide)

/-- C1 (counterexample): with the store at player 2 to move, the
variant-B click handler of script.js lets player 1 commit a fill of
(1,1) — the cell is written even though the move is illegal against the
freshest store value — while the legal attempt of player 2 is rejected;
the legality checks were evaluated against the stale snapshot fallback,
not inside an atomic transition. -/
theorem fill_commits_against_stale_check :
    storeTurn2B.turn = 2 ∧
    ((onCircleClickB 1 (1, 1) storeTurn2B).map fun s2 => s2.cells (1, 1)) = some (some 1) ∧
    (onCircleClickB 2 (1, 1) storeTurn2B).isSome = false := by
  refine ⟨rfl, by decide, by decide⟩

/-- C1 (amended): the onFill commitment of part_000 goes through a
transaction whose turn and occupancy checks are evaluated on the value
the store supplies at commit time — the transaction succeeds exactly when
that value has the acting player to move and the cell empty — so of two
racing transactional fills of which only one is legal, exactly the legal
one commits, in either serialization order.  The script.js click
handlers instead check a pre-fetched snapshot and then issue a plain
update (see the counterexample). -/
theorem transactional_fill_serializes (p q : PlayerC) (k1 k2 : ℤ × ℤ) (lp lq S : StateC)
    (hturn : S.turn = some p) (hempty : S.board k1 = none) (hpq : q ≠ p) :
    (∀ d : StateC, (onFillTxn p k1 lp (some d)).isSome ↔ (d.turn = some p ∧ d.board k1 = none)) ∧
    runTxn (onFillTxn q k2 lq) (runTxn (onFillTxn p k1 lp) (some S))
      = some (fillMoveC p k1 S) ∧
    runTxn (onFillTxn p k1 lp) (runTxn (onFillTxn q k2 lq) (some S))
      = some (fillMoveC p k1 S) := by
  have hP : onFillTxn p k1 lp (some S) = some (fillMoveC p k1 S) := by
    unfold onFillTxn
    simp only [Option.getD_some]
    rw [if_neg (by simp [hturn]), if_neg (by simp [hempty])]
  have hQabort : onFillTxn q k2 lq (some S) = none := by
    unfold onFillTxn
    simp only [Option.getD_some]
    rw [if_pos]
    rw [hturn]
    intro hh
    exact hpq (Option.some.inj hh).symm
  have hQabortLocked : onFillTxn q k2 lq (some (fillMoveC p k1 S)) = none := by
    unfold onFillTxn
    simp only [Option.getD_some]
    rw [if_pos]
    show (fillMoveC p k1 S).turn ≠ some q
    simp [fillMoveC]
  refine ⟨?legal, ?order1, ?order2⟩
  case legal =>
    intro d
    unfold onFillTxn
    simp only [Option.getD_some]
    constructor
    · intro h
      by_cases c1 : d.turn ≠ some p
      · rw [if_pos c1] at h
        simp at h
      · push_neg at c1
        by_cases c2 : (d.board k1).isSome
        · rw [if_neg (by simp [c1]), if_pos c2] at h
          simp at h
        · exact ⟨c1, Option.not_isSome_iff_eq_none.mp c2⟩
    · rintro ⟨h1, h2⟩
      rw [if_neg (by simp [h1]), if_neg (by simp [h2])]
      simp
  case order1 =>
    show runTxn (onFillTxn q k2 lq) (runTxn (onFillTxn p k1 lp) (some S)) = _
    unfold runTxn
    rw [hP, hQabortLocked]
  case order2 =>
    unfold runTxn
    rw [hQabort, hP]

/-- Witness for the amended C1: from the fresh part_000 state (turn
blue), a blue fill of (0,0) and a racing red fill of (0,1) serialize so
that exactly the blue fill commits. -/
theorem transactional_fill_serializes_witness :
    runTxn (onFillTxn PlayerC.red (0, 1) initialStateC)
        (runTxn (onFillTxn PlayerC.blue (0, 0) initialStateC) (some initialStateC))
      = some (fillMoveC PlayerC.blue (0, 0) initialStateC) :=
  (transactional_fill_serializes PlayerC.blue PlayerC.red (0, 0) (0, 1)
    initialStateC initialStateC initialStateC rfl rfl (by decide)).2.1

/-- C5: a line already present among the drawn lines cannot be claimed
again.  In part_000, tryLine finds the already-drawn duplicate by its
endpoints and returns without running the transaction, leaving the state
(owner and scores included) unchanged; in the script.js pending-draw
variant, the overlay click handler ignores a line that is not pending,
and a claim removes the line from pendingLines, so a repeated claim click
is ignored. -/
theorem claimed_line_not_reclaimed :
    (∀ (p : PlayerC) (path : List (ℤ × ℤ)) (state : StateC) (mtch : List (ℤ × ℤ)),
      findMatchC path = some mtch → existsLineC state mtch = true →
        tryLineC p path state = state) ∧
    (∀ (p : ℕ) (lid : LineIdA) (pending : List LineIdA) (store : StateA),
      lid ∉ pending → claimLineClickA p lid pending store = (store, pending)) ∧
    (∀ (p : ℕ) (lid : LineIdA) (pending : List LineIdA) (store : StateA),
      lid ∉ (claimLineClickA p lid pending store).2) := by
  refine ⟨?dup, ?notpending, ?removed⟩
  case dup =>
    intro p path state mtch hfind hex
    unfold tryLineC
    rw [hfind]
    show (if existsLineC state mtch then state else lineMoveC p mtch state) = state
    rw [if_pos hex]
  case notpending =>
    intro p lid pending store h
    unfold claimLineClickA
    rw [if_pos h]
  case removed =>
    intro p lid pending store
    unfold claimLineClickA
    by_cases h : lid ∉ pending
    · rw [if_pos h]
      exact h
    · rw [if_neg h]
      by_cases he : (drawOneEligibleLineA p lid pending store).2.isEmpty
      · rw [if_pos he]
        rw [List.isEmpty_iff.mp he]
        simp
      · rw [if_neg he]
        unfold drawOneEligibleLineA
        simp

/-- Witness for C5: the two-cell diagonal (7,0)-(8,1), already drawn by
blue in claimedStateC, is rejected by a second tryLine gesture along it
and the state is unchanged. -/
theorem claimed_line_not_reclaimed_witness :
    tryLineC PlayerC.blue [((7 : ℤ), (0 : ℤ)), ((8 : ℤ), (1 : ℤ))] claimedStateC
      = claimedStateC :=
  claimed_line_not_reclaimed.1 PlayerC.blue [((7 : ℤ), (0 : ℤ)), ((8 : ℤ), (1 : ℤ))]
    claimedStateC (diagSECells 7 0) (by decide) (by decide)

/-- C6 (counterexample): in the pending-draw variant of script.js, the
accepted fill of player 1 on (10,1) from the fresh board completes the
line row-10, yet the shared Turn is not set to none: checkEligibleAfterFill
stores the eligible lines only in the client-local pendingLines and the
shared Turn stays with player 1. -/
theorem pending_fill_leaves_turn_unlocked :
    clickFillA 1 [] (10, 1) (some buildInitialStateA) buildInitialStateA
      = some (fillCellA 1 (10, 1) buildInitialStateA) ∧
    (checkEligibleAfterFillA 1 (10, 1) (fillCellA 1 (10, 1) buildInitialStateA) []).2 ≠ [] ∧
    (checkEligibleAfterFillA 1 (10, 1) (fillCellA 1 (10, 1) buildInitialStateA) []).1.turn
      = some 1 ∧
    (checkEligibleAfterFillA 1 (10, 1) (fillCellA 1 (10, 1) buildInitialStateA) []).1.turn
      ≠ none := by
  refine ⟨rfl, by decide, by decide, by decide⟩

/-- C6 (amended): after an accepted fill that completes at least one line
in the pending-draw variant, the store (its Turn included) is left
unchanged and the completed lines live in the client-local pendingLines;
while pendingLines is nonempty the fill handler rejects every fill, a
fill by a player whose read state does not show their turn is rejected,
and claiming the last pending line runs finalizeAfterAllLines, which
passes the shared Turn to the other player. -/
theorem pending_draw_lock_is_client_side :
    (∀ (p : ℕ) (key : ℕ × ℕ) (store : StateA) (pending : List LineIdA),
      eligibleLinesA key store ≠ [] →
        checkEligibleAfterFillA p key store pending = (store, eligibleLinesA key store)) ∧
    (∀ (p : ℕ) (pending : List LineIdA) (key : ℕ × ℕ) (snap : Option StateA) (store : StateA),
      pending ≠ [] → clickFillA p pending key snap store = none) ∧
    (∀ (p : ℕ) (pending : List LineIdA) (key : ℕ × ℕ) (snap : Option StateA) (store : StateA),
      (snap.getD buildInitialStateA).turn ≠ some p →
        clickFillA p pending key snap store = none) ∧
    (∀ (p : ℕ) (lid : LineIdA) (store : StateA),
      claimLineClickA p lid [lid] store
        = (finalizeAfterAllLinesA p (drawOneEligibleLineA p lid [lid] store).1, []) ∧
      (finalizeAfterAllLinesA p (drawOneEligibleLineA p lid [lid] store).1).turn
        = some (otherPlayer p)) := by
  refine ⟨?eligible, ?pendingBlock, ?turnBlock, ?lastClaim⟩
  case eligible =>
    intro p key store pending h
    unfold checkEligibleAfterFillA
    rw [if_pos (List.length_pos.mpr h)]
  case pendingBlock =>
    intro p pending key snap store h
    unfold clickFillA
    rw [if_pos (Or.inr h)]
  case turnBlock =>
    intro p pending key snap store h
    unfold clickFillA
    rw [if_pos (Or.inl h)]
  case lastClaim =>
    intro p lid store
    have h2 : (drawOneEligibleLineA p lid [lid] store).2 = [] := by
      unfold drawOneEligibleLineA
      simp
    refine ⟨?eq, rfl⟩
    unfold claimLineClickA
    rw [if_neg (by simp)]
    rw [if_pos (by rw [h2]; rfl)]
    rw [h2]

/-- Witness for the amended C6: concrete instances of its four parts
around the fill of (10,1) completing row-10. -/
theorem pending_draw_lock_is_client_side_witness :
    checkEligibleAfterFillA 1 (10, 1) (fillCellA 1 (10, 1) buildInitialStateA) []
      = (fillCellA 1 (10, 1) buildInitialStateA,
         eligibleLinesA (10, 1) (fillCellA 1 (10, 1) buildInitialStateA)) ∧
    clickFillA 1 [LineIdA.row 10] (1, 1) none buildInitialStateA = none ∧
    clickFillA 2 [] (1, 1) none buildInitialStateA = none ∧
    claimLineClickA 1 (LineIdA.row 10) [LineIdA.row 10]
        (fillCellA 1 (10, 1) buildInitialStateA)
      = (finalizeAfterAllLinesA 1
          (drawOneEligibleLineA 1 (LineIdA.row 10) [LineIdA.row 10]
            (fillCellA 1 (10, 1) buildInitialStateA)).1, []) :=
  ⟨pending_draw_lock_is_client_side.1 1 (10, 1) (fillCellA 1 (10, 1) buildInitialStateA) []
      (by decide),
   pending_draw_lock_is_client_side.2.1 1 [LineIdA.row 10] (1, 1) none buildInitialStateA
      (by decide),
   pending_draw_lock_is_client_side.2.2.1 2 [] (1, 1) none buildInitialStateA (by decide),
   (pending_draw_lock_is_client_side.2.2.2 1 (LineIdA.row 10)
      (fillCellA 1 (10, 1) buildInitialStateA)).1⟩

/-- The variant-A click handler decision depends only on the snapshot
fallback: snapshotValue always returns null. -/
theorem clickA_decision (p : ℕ) (pending : List LineIdA) (key : ℕ × ℕ) (s : StateA) :
    (onCircleClickA p pending key s).isSome =
      (decide (buildInitialStateA.turn = some p) && decide (pending = []) &&
       decide (buildInitialStateA.cells key = some 0)) := by
  unfold onCircleClickA clickFillA snapshotValueA
  simp only [Option.getD_none]
  by_cases h1 : buildInitialStateA.turn ≠ some p ∨ pending ≠ []
  · rw [if_pos h1]
    rcases h1 with h | h <;> simp [h]
  · rw [if_neg h1]
    push_neg at h1
    obtain ⟨ht, hp⟩ := h1
    by_cases h2 : buildInitialStateA.cells key ≠ some 0
    · rw [if_pos h2]
      simp [ht, hp, h2]
    · rw [if_neg h2]
      push_neg at h2
      simp [ht, hp, h2]

/-- The variant-B click handler decision depends only on the snapshot
fallback: snapshotValue always returns null. -/
theorem clickB_decision (p : ℕ) (key : ℕ × ℕ) (s : StateB) :
    (onCircleClickB p key s).isSome =
      (decide (buildInitialStateB.turn = p) && decide (buildInitialStateB.cells key = some 0)) := by
  unfold onCircleClickB clickFillB snapshotValueB
  simp only [Option.getD_none]
  by_cases h1 : buildInitialStateB.turn ≠ p
  · rw [if_pos h1]
    simp [h1]
  · rw [if_neg h1]
    push_neg at h1
    by_cases h2 : buildInitialStateB.cells key ≠ some 0
    · rw [if_pos h2]
      simp [h1, h2]
    · rw [if_neg h2]
      push_neg at h2
      simp [h1, h2]

/-- C10: snapshotValue returns null (absent) for every store value on
every call — the once-only subscription callback only runs after
snapshotValue has returned — so the fill click handlers of both script.js
variants evaluate their turn and occupancy checks against the
buildInitialState fallback (turn = player 1, all cells empty): their
accept/reject decision is the same for every two store values and equals
the legality check on the fallback state. -/
theorem snapshot_always_null_stale_guard :
    (∀ sA : StateA, (snapshotValueA sA).1 = none) ∧
    (∀ sB : StateB, (snapshotValueB sB).1 = none) ∧
    (∀ (p : ℕ) (pending : List LineIdA) (key : ℕ × ℕ) (s1 s2 : StateA),
      (onCircleClickA p pending key s1).isSome = (onCircleClickA p pending key s2).isSome) ∧
    (∀ (p : ℕ) (pending : List LineIdA) (key : ℕ × ℕ) (s : StateA),
      (onCircleClickA p pending key s).isSome =
        (decide (buildInitialStateA.turn = some p) && decide (pending = []) &&
         decide (buildInitialStateA.cells key = some 0))) ∧
    (∀ (p : ℕ) (key : ℕ × ℕ) (s1 s2 : StateB),
      (onCircleClickB p key s1).isSome = (onCircleClickB p key s2).isSome) ∧
    (∀ (p : ℕ) (key : ℕ × ℕ) (s : StateB),
      (onCircleClickB p key s).isSome =
        (decide (buildInitialStateB.turn = p) &&
         decide (buildInitialStateB.cells key = some 0))) := by
  refine ⟨fun _ => rfl, fun _ => rfl, ?indA, clickA_decision, ?indB, clickB_decision⟩
  case indA =>
    intro p pending key s1 s2
    rw [clickA_decision, clickA_decision]
  case indB =>
    intro p key s1 s2
    rw [clickB_decision, clickB_decision]

/-- Witness for the amended C4: the completed-line scan after the fill of
(10,1) is unchanged when the two players are exchanged on the board. -/
theorem newly_complete_occupancy_witness :
    completedLinesB (10, 1) (swapPlayersB (fillCellB 1 (10, 1) buildInitialStateB))
      = completedLinesB (10, 1) (fillCellB 1 (10, 1) buildInitialStateB) :=
  (newly_complete_occupancy (fillCellB 1 (10, 1) buildInitialStateB) (10, 1)
    (LineIdB.row 10) [] 1 1).2.1

/-- Witness for C10: the variant-B fill decision is the same on a store
with turn 2 as on the fresh store. -/
theorem snapshot_always_null_stale_guard_witness :
    (onCircleClickB 1 (1, 1) storeTurn2B).isSome
      = (onCircleClickB 1 (1, 1) buildInitialStateB).isSome :=
  snapshot_always_null_stale_guard.2.2.2.2.1 1 (1, 1) storeTurn2B buildInitialStateB

/-- C2 (amended): in every fill path other than handleCircleClick, a fill
attempt on a position whose cell is non-empty in the consulted state is
rejected with no state change: the script.js variant-B and variant-A
click handlers return none (no update is issued, so no cell, score, line
or turn changes), and the part_000 onFill transaction aborts on an
occupied cell, leaving the store value identical.  handleCircleClick of
variant D alone omits the occupancy check (see the counterexample). -/
theorem occupied_cell_fill_rejected :
    (∀ (p : ℕ) (key : ℕ × ℕ) (snap : Option StateB) (store : StateB),
      (snap.getD buildInitialStateB).cells key ≠ some 0 →
        clickFillB p key snap store = none) ∧
    (∀ (p : ℕ) (pending : List LineIdA) (key : ℕ × ℕ) (snap : Option StateA) (store : StateA),
      (snap.getD buildInitialStateA).cells key ≠ some 0 →
        clickFillA p pending key snap store = none) ∧
    (∀ (p : PlayerC) (key : ℤ × ℤ) (lp S : StateC),
      (S.board key).isSome = true →
        runTxn (onFillTxn p key lp) (some S) = some S) := by
  refine ⟨?varB, ?varA, ?varC⟩
  case varB =>
    intro p key snap store h
    unfold clickFillB
    by_cases h1 : (snap.getD buildInitialStateB).turn ≠ p
    · rw [if_pos h1]
    · rw [if_neg h1, if_pos h]
  case varA =>
    intro p pending key snap store h
    unfold clickFillA
    by_cases h1 : (snap.getD buildInitialStateA).turn ≠ some p ∨ pending ≠ []
    · rw [if_pos h1]
    · rw [if_neg h1, if_pos h]
  case varC =>
    intro p key lp S h
    unfold runTxn onFillTxn
    simp only [Option.getD_some]
    by_cases h1 : S.turn ≠ some p
    · rw [if_pos h1]
    · rw [if_neg h1, if_pos h]

/-- Witness for the amended C2: concrete occupied-cell rejections on all
three paths — variant B and variant A reading a state whose cell (1,1) is
owned by player 2 while player 1 is to move, and the blue onFill
transaction against a store whose cell (0,0) is owned by red. -/
theorem occupied_cell_fill_rejected_witness :
    clickFillB 1 (1, 1) (some (fillCellB 2 (1, 1) buildInitialStateB)) buildInitialStateB
      = none ∧
    clickFillA 1 [] (1, 1) (some (fillCellA 2 (1, 1) buildInitialStateA)) buildInitialStateA
      = none ∧
    runTxn (onFillTxn PlayerC.blue (0, 0) initialStateC) (some occupiedStateC)
      = some occupiedStateC :=
  ⟨occupied_cell_fill_rejected.1 1 (1, 1) (some (fillCellB 2 (1, 1) buildInitialStateB))
      buildInitialStateB (by decide),
   occupied_cell_fill_rejected.2.1 1 [] (1, 1) (some (fillCellA 2 (1, 1) buildInitialStateA))
      buildInitialStateA (by decide),
   occupied_cell_fill_rejected.2.2 PlayerC.blue (0, 0) initialStateC occupiedStateC
      (by decide)⟩
